import Mathlib

/-!
Verification of the two developer-tooling scripts of the repository
(`tools/clang_format_all.py` and `tools/generate_docs.py`) against their
natural-language specification.

The scripts are shallowly embedded: filesystem paths become lists of
components, file contents become lists of characters, the external
`clang-format` processes become an environment of return codes, and each
script's `main` becomes a pure function producing an exit status, the list
of external commands it would run, and the list of messages it would print.
-/

/-! ### Character / string helpers shared by both embeddings -/

/-- Lexicographic order (by code point) on lists of characters; this is how
Python compares the `str` forms of two `pathlib.Path` values. -/
def strLe : List Char → List Char → Bool
  | [], _ => true
  | _ :: _, [] => false
  | a :: as, b :: bs =>
    if a.toNat < b.toNat then true
    else if b.toNat < a.toNat then false
    else strLe as bs

theorem strLe_total (a b : List Char) : (strLe a b || strLe b a) = true := by
  induction a generalizing b with
  | nil => simp [strLe]
  | cons x as ih =>
    cases b with
    | nil => simp [strLe]
    | cons y bs =>
      by_cases h1 : x.toNat < y.toNat
      · simp [strLe, h1]
      · by_cases h2 : y.toNat < x.toNat
        · simp [strLe, h1, h2]
        · simp [strLe, h1, h2, ih bs]

theorem strLe_trans (a b c : List Char) :
    strLe a b = true → strLe b c = true → strLe a c = true := by
  induction a generalizing b c with
  | nil => intro _ _; simp [strLe]
  | cons x as ih =>
    cases b with
    | nil => intro h; simp [strLe] at h
    | cons y bs =>
      cases c with
      | nil => intro _ h; simp [strLe] at h
      | cons z cs =>
        intro hab hbc
        simp only [strLe] at hab hbc ⊢
        by_cases h1 : x.toNat < y.toNat
        · by_cases h2 : y.toNat < z.toNat
          · have : x.toNat < z.toNat := Nat.lt_trans h1 h2
            simp [this]
          · by_cases h3 : z.toNat < y.toNat
            · simp [h2, h3] at hbc
            · have hyz : y.toNat = z.toNat := Nat.le_antisymm (Nat.le_of_not_lt h3) (Nat.le_of_not_lt h2)
              simp [hyz ▸ h1]
        · by_cases h2 : y.toNat < x.toNat
          · simp [h1, h2] at hab
          · have hxy : x.toNat = y.toNat := Nat.le_antisymm (Nat.le_of_not_lt h2) (Nat.le_of_not_lt h1)
            by_cases h3 : y.toNat < z.toNat
            · simp [hxy ▸ h3]
            · by_cases h4 : z.toNat < y.toNat
              · simp [h3, h4] at hbc
              · simp only [h1, h2, if_neg, ite_false] at hab
                simp only [h3, h4, if_neg, ite_false] at hbc
                have hxz : ¬ x.toNat < z.toNat := by omega
                have hzx : ¬ z.toNat < x.toNat := by omega
                simp [hxz, hzx, ih bs cs hab hbc]

/-! ### Filesystem paths

A path is a list of components, outermost first; the leading `/` of an
absolute path is not represented (it is never in the skip list and is a
common prefix of every compared string, so it affects neither the component
test nor the sort order). -/

abbrev FsPath := List String

/-- The string form of a path, as Python's `str(path)` (modulo the leading
slash, see above). -/
def joinPath (p : FsPath) : String := String.intercalate ("/") p

/-- Order on paths used by Python's `sorted` on `pathlib.Path` values:
lexicographic comparison of their string forms. -/
def pathLe (p q : FsPath) : Bool := strLe (joinPath p).data (joinPath q).data

theorem pathLe_total (p q : FsPath) : (pathLe p q || pathLe q p) = true :=
  strLe_total _ _

theorem pathLe_trans (p q r : FsPath) :
    pathLe p q = true → pathLe q r = true → pathLe p r = true :=
  strLe_trans _ _ _

/-! ### Project-root locator (clang_format_all.py 29-36, generate_docs.py 60-67)

Both scripts contain the identical `find_project_root`.  A directory is a
list of components, innermost component FIRST, so `[]` is the filesystem
root and `List.tail` is `Path.parent`.  The `marker` predicate models
`(dir / 'CMakeLists.txt').exists()`; the `cwd` argument models `Path.cwd()`. -/

def find_project_root (marker : List String → Bool) : List String → List String → List String
  | [], cwd => cwd
  | c :: parent, cwd =>
    if marker (c :: parent) then c :: parent else find_project_root marker parent cwd

/-- Modelled from the spec (C8 wording): the nearest ancestor directory —
including the starting directory itself and the filesystem root — that
contains the marker file. -/
def nearestAncestorWithMarker (marker : List String → Bool) : List String → Option (List String)
  | [] => if marker [] then some [] else none
  | c :: parent =>
    if marker (c :: parent) then some (c :: parent) else nearestAncestorWithMarker marker parent

/-- The chain of directories the loop of `find_project_root` actually
examines: the starting directory and its ancestors, the filesystem root
excluded (the `while current != current.parent` guard stops before it). -/
def ancestorChain : List String → List (List String)
  | [] => []
  | c :: parent => (c :: parent) :: ancestorChain parent

/-- C8 (counterexample): when only the filesystem root contains the marker,
the locator does not return the nearest marker-bearing ancestor (the root):
the loop guard exits before ever testing the root, and the current working
directory is returned instead. -/
theorem find_project_root_counterexample :
    nearestAncestorWithMarker (fun d => d.isEmpty) ["x"] = some [] ∧
    find_project_root (fun d => d.isEmpty) ["x"] ["y"] = ["y"] ∧
    (["y"] : List String) ≠ [] := by
  refine ⟨rfl, rfl, by simp⟩

/-- C8 (amended): `find_project_root` is a total, side-effect-free function;
it returns the first directory among the start and its ancestors STRICTLY
BELOW the filesystem root that contains the marker, and the current working
directory when none of them does (even if the root itself contains it). -/
theorem find_project_root_amended (marker : List String → Bool) (dir cwd : List String) :
    find_project_root marker dir cwd = ((ancestorChain dir).find? marker).getD cwd := by
  induction dir with
  | nil => rfl
  | cons c parent ih =>
    by_cases h : marker (c :: parent)
    · simp [find_project_root, ancestorChain, h]
    · simp [find_project_root, ancestorChain, h, ih]

/-! ### File discovery (clang_format_all.py 22-26, 39-51) -/

def CPP_EXTENSIONS : List String := [".cpp", ".hpp", ".h", ".cc", ".cxx", ".hxx", ".c"]

def SKIP_DIRS : List String :=
  ["build", "cmake-build-debug", "cmake-build-release", "out",
   ".git", "third_party", "external", "vendor"]

/-- Index of the last `.` in a file name, if any. -/
def lastIndexOfDot : List Char → Option Nat
  | [] => none
  | c :: rest =>
    match lastIndexOfDot rest with
    | some i => some (i + 1)
    | none => if c = ('.' : Char) then some 0 else none

/-- Python `pathlib`'s suffix of a file NAME: the part from the last dot on,
but only when that dot is neither the first nor the last character (so
`.git` and `name.` both have suffix `""`). -/
def nameSuffix (name : String) : String :=
  let cs := name.data
  match lastIndexOfDot cs with
  | some i => if 0 < i ∧ i < cs.length - 1 then String.mk (cs.drop i) else ""
  | none => ""

/-- `path.suffix`: the suffix of the final component. -/
def pathSuffix (p : FsPath) : String :=
  match p.getLast? with
  | some name => nameSuffix name
  | none => ""

/-- Abstract filesystem as seen by `clang_format_all.py`: whether a path is
an existing regular file / an existing directory, and — for `root.rglob('*')`
— the entries found under a root (each as a path relative to that root,
paired with whether the entry is a regular file). -/
structure FS where
  isFile : FsPath → Bool
  isDir : FsPath → Bool
  tree : FsPath → List (FsPath × Bool)

/-- find_cpp_files (clang_format_all.py 39-51): walk `root.rglob('*')`, skip
any path one of whose components is in SKIP_DIRS (`path.parts` contains the
root's own components too), keep regular files with a recognized extension,
and return the result sorted. -/
def find_cpp_files (fs : FS) (root : FsPath) : List FsPath :=
  let cpp_files := (fs.tree root).filterMap (fun e =>
    let path := root ++ e.1
    if path.any (fun part => SKIP_DIRS.contains part) then none
    else if e.2 && CPP_EXTENSIONS.contains (pathSuffix path) then some path
    else none)
  cpp_files.mergeSort pathLe

/-- The per-entry function inside find_cpp_files, characterized. -/
theorem find_cpp_files_entry (root rel : FsPath) (b : Bool) (p : FsPath) :
    (if (root ++ rel).any (fun part => SKIP_DIRS.contains part) then none
     else if b && CPP_EXTENSIONS.contains (pathSuffix (root ++ rel)) then some (root ++ rel)
     else none) = some p ↔
    (b = true ∧ p = root ++ rel ∧
      (∀ part ∈ root ++ rel, part ∉ SKIP_DIRS) ∧
      pathSuffix (root ++ rel) ∈ CPP_EXTENSIONS) := by
  by_cases hskip : ((root ++ rel).any (fun part => SKIP_DIRS.contains part)) = true
  · rw [if_pos hskip]
    simp only [List.any_eq_true, List.elem_iff] at hskip
    obtain ⟨part, hpart, hin⟩ := hskip
    constructor
    · intro h; exact absurd h (by simp)
    · rintro ⟨-, -, hall, -⟩
      exact absurd hin (hall part hpart)
  · rw [if_neg hskip]
    have hall : ∀ part ∈ root ++ rel, part ∉ SKIP_DIRS := by
      intro part hpart hin
      exact hskip (List.any_eq_true.mpr ⟨part, hpart, List.elem_iff.mpr hin⟩)
    cases b with
    | false => simp
    | true =>
      by_cases hext : pathSuffix (root ++ rel) ∈ CPP_EXTENSIONS
      · rw [if_pos (by simpa [List.elem_iff] using hext)]
        constructor
        · intro h
          simp only [Option.some.injEq] at h
          exact ⟨rfl, h.symm, hall, hext⟩
        · rintro ⟨-, hp, -, -⟩
          rw [hp]
      · rw [if_neg (by simpa [List.elem_iff] using hext)]
        simp [hext]

/-- C4: file discovery returns exactly the regular files under the root
whose extension is in the recognized C/C++ set and none of whose path
components (those of the root included) is in the SKIP_DIRS denylist,
sorted lexicographically by path string, with no duplicates. -/
theorem find_cpp_files_spec (fs : FS) (root : FsPath)
    (hnd : ((fs.tree root).map Prod.fst).Nodup) :
    (∀ p, p ∈ find_cpp_files fs root ↔
      ∃ rel, (rel, true) ∈ fs.tree root ∧ p = root ++ rel ∧
        (∀ part ∈ p, part ∉ SKIP_DIRS) ∧ pathSuffix p ∈ CPP_EXTENSIONS)
    ∧ (find_cpp_files fs root).Pairwise (fun a b => pathLe a b = true)
    ∧ (find_cpp_files fs root).Nodup := by
  refine ⟨?_, ?_, ?_⟩
  · intro p
    unfold find_cpp_files
    rw [List.mem_mergeSort, List.mem_filterMap]
    constructor
    · rintro ⟨⟨rel, b⟩, hmem, hf⟩
      rw [find_cpp_files_entry] at hf
      obtain ⟨hb, hp, hskip, hext⟩ := hf
      cases hb
      exact ⟨rel, hmem, hp, by rw [hp]; exact hskip, by rw [hp]; exact hext⟩
    · rintro ⟨rel, hmem, hp, hskip, hext⟩
      refine ⟨(rel, true), hmem, ?_⟩
      rw [find_cpp_files_entry]
      exact ⟨rfl, hp, by rw [← hp]; exact hskip, by rw [← hp]; exact hext⟩
  · exact List.sorted_mergeSort
      (fun a b c => pathLe_trans a b c) (fun a b => pathLe_total a b) _
  · unfold find_cpp_files
    refine (List.mergeSort_perm _ _).symm.nodup ?_
    refine List.Nodup.filterMap ?_ (List.Nodup.of_map Prod.fst hnd)
    rintro ⟨rela, ba⟩ ⟨relb, bb⟩ p hpa hpb
    simp only [Option.mem_def] at hpa hpb
    rw [find_cpp_files_entry] at hpa hpb
    obtain ⟨hba, hpa2, -, -⟩ := hpa
    obtain ⟨hbb, hpb2, -, -⟩ := hpb
    cases hba; cases hbb
    have hrel : rela = relb := List.append_cancel_left (hpa2 ▸ hpb2)
    rw [hrel]


/-- A tiny concrete filesystem used by witnesses: a project with one good
source file, one file inside an excluded directory, and one non-C++ file. -/
def fsW : FS where
  isFile := fun p => decide (p = ["proj", "src", "a.cpp"] ∨ p = ["README.md"])
  isDir := fun p => decide (p = ["proj"])
  tree := fun r =>
    if r = ["proj"] then
      [(["src", "a.cpp"], true), (["build", "b.cpp"], true), (["notes.txt"], true),
       (["src"], false)]
    else []

/-- C4 witness: the theorem instantiated on the concrete filesystem `fsW`. -/
theorem find_cpp_files_spec_witness :
    ((((fsW.tree ["proj"]).map Prod.fst).Nodup) ∧
      ((∀ p, p ∈ find_cpp_files fsW ["proj"] ↔
        ∃ rel, (rel, true) ∈ fsW.tree ["proj"] ∧ p = ["proj"] ++ rel ∧
          (∀ part ∈ p, part ∉ SKIP_DIRS) ∧ pathSuffix p ∈ CPP_EXTENSIONS)
      ∧ (find_cpp_files fsW ["proj"]).Pairwise (fun a b => pathLe a b = true)
      ∧ (find_cpp_files fsW ["proj"]).Nodup)) :=
  ⟨by decide, find_cpp_files_spec fsW ["proj"] (by decide)⟩

/-! ### The driver main (clang_format_all.py 54-171)

The run of `main` is modelled as a pure function from an abstract
filesystem, an environment of external processes and the parsed arguments
to the exit status, the ordered list of external commands issued and the
ordered list of messages printed. -/

/-- An external command the driver can attempt to run. -/
inductive Cmd
  | probe (name : String)
  | version (name : String)
  | checkFile (tool : String) (file : FsPath)
  | fixFile (tool : String) (file : FsPath)
deriving DecidableEq

/-- A message the driver prints, one constructor per print site. -/
inductive Msg
  | projectRoot (root : FsPath)
  | clangNotFound
  | usingVersion (out : String)
  | foundCount (n : Nat)
  | processing (f : FsPath)
  | needsFormatting (f : FsPath)
  | errorFormatting (f : FsPath) (stderr : String)
  | dryRunHeader
  | dryRunFile (rel : FsPath)
  | crashRelativeTo (f : FsPath)
  | summaryNeed (n : Nat)
  | runToFix
  | allFormatted
  | formattedCount (n : Nat)
deriving DecidableEq

/-- The environment of external processes: which executable names exist (a
missing one raises FileNotFoundError when invoked), the return code of each
command, the captured stderr of a failed in-place format, and the stdout of
a version query. -/
structure Env where
  found : String → Bool
  rc : Cmd → Int
  stderrOf : FsPath → String
  versionOut : String → String

/-- Parsed command-line arguments (lines 107-119). -/
structure Args where
  check : Bool
  verbose : Bool
  dryRun : Bool
  paths : List FsPath
deriving DecidableEq

/-- Outcome of a run: process exit status, external commands attempted (in
order), and messages printed (in order). -/
structure RunResult where
  exit : Nat
  trace : List Cmd
  prints : List Msg
deriving DecidableEq

/-- Candidate executable names, in probe order (lines 57-58). -/
def toolNames : List String :=
  ["clang-format", "clang-format-17", "clang-format-16",
   "clang-format-15", "clang-format-14"]

/-- check_clang_format (lines 54-71): probe the names in order and select
the first that exists and answers the version query with return code 0
(a missing executable raises FileNotFoundError and the loop continues; a
non-zero return code also continues).  Returns the selected name (`none`
means the fatal exit-1 path of line 71) and the probe commands attempted. -/
def check_clang_format (env : Env) : List String → Option String × List Cmd
  | [] => (none, [])
  | n :: rest =>
    if env.found n = true ∧ env.rc (Cmd.probe n) = 0 then (some n, [Cmd.probe n])
    else
      let r := check_clang_format env rest
      (r.1, Cmd.probe n :: r.2)

/-- format_file (lines 74-103): process one file; returns the boolean the
Python function returns, the command run and the messages printed.  In
check mode the command is `--style=file --dry-run --Werror FILE` (which
does not modify the file), in fix mode it is `--style=file -i FILE`. -/
def format_file (env : Env) (tool : String) (f : FsPath) (check_only verbose : Bool) :
    Bool × List Cmd × List Msg :=
  let pre := if verbose then [Msg.processing f] else []
  if check_only then
    if env.rc (Cmd.checkFile tool f) ≠ 0 then
      (true, [Cmd.checkFile tool f], pre ++ [Msg.needsFormatting f])
    else (false, [Cmd.checkFile tool f], pre)
  else
    if env.rc (Cmd.fixFile tool f) ≠ 0 then
      (false, [Cmd.fixFile tool f], pre ++ [Msg.errorFormatting f (env.stderrOf f)])
    else (true, [Cmd.fixFile tool f], pre)

/-- The per-file loop of main (lines 151-154): the needs_formatting count
(number of files whose format_file returned True) together with the
accumulated commands and prints. -/
def formatLoop (env : Env) (tool : String) (check verbose : Bool) :
    List FsPath → Nat × List Cmd × List Msg
  | [] => (0, [], [])
  | f :: rest =>
    let r := format_file env tool f check verbose
    let t := formatLoop env tool check verbose rest
    ((if r.1 then 1 else 0) + t.1, r.2.1 ++ t.2.1, r.2.2 ++ t.2.2)

/-- The positional-paths branch of main (lines 132-138): an existing file
is taken as-is, an existing directory is expanded through find_cpp_files,
and anything else contributes nothing. -/
def collectPaths (fs : FS) : List FsPath → List FsPath
  | [] => []
  | p :: rest =>
    (if fs.isFile p then [p]
     else if fs.isDir p then find_cpp_files fs p
     else []) ++ collectPaths fs rest

/-- The candidate file list of a run (lines 132-140): positional paths when
given, otherwise a scan of the whole project. -/
def cppFilesOf (fs : FS) (root : FsPath) (args : Args) : List FsPath :=
  if args.paths.isEmpty then find_cpp_files fs root else collectPaths fs args.paths

/-- The printing loop of the --dry-run branch (lines 144-148).
`f.relative_to(project_root)` raises ValueError when the root is not a
prefix of the file, and that exception escapes main uncaught (the process
then exits with status 1); the Bool is true when the loop completed. -/
def dryRunLoop (root : FsPath) : List FsPath → List Msg × Bool
  | [] => ([], true)
  | f :: rest =>
    if root.isPrefixOf f then
      let t := dryRunLoop root rest
      (Msg.dryRunFile (f.drop root.length) :: t.1, t.2)
    else ([Msg.crashRelativeTo f], false)

/-- main, lines 122-167, after the tool has been resolved and the candidate
files collected. -/
def mainWithFiles (env : Env) (root : FsPath) (check verbose dryRun : Bool)
    (tool : String) (probes : List Cmd) (files : List FsPath) : RunResult :=
  let trace := probes ++ [Cmd.version tool]
  let prints := [Msg.projectRoot root, Msg.usingVersion (env.versionOut tool),
                 Msg.foundCount files.length]
  if dryRun then
    let d := dryRunLoop root files
    { exit := if d.2 then 0 else 1, trace := trace,
      prints := prints ++ Msg.dryRunHeader :: d.1 }
  else
    let r := formatLoop env tool check verbose files
    if check then
      if r.1 > 0 then
        { exit := 1, trace := trace ++ r.2.1,
          prints := prints ++ r.2.2 ++ [Msg.summaryNeed r.1, Msg.runToFix] }
      else
        { exit := 0, trace := trace ++ r.2.1,
          prints := prints ++ r.2.2 ++ [Msg.allFormatted] }
    else
      { exit := 0, trace := trace ++ r.2.1,
        prints := prints ++ r.2.2 ++ [Msg.formattedCount files.length] }

/-- main (lines 106-171).  `root` abbreviates the find_project_root result
of line 122; when no executable is found the run stops with exit status 1
(line 71), after printing only the project root and the error text. -/
def clang_format_main (fs : FS) (env : Env) (root : FsPath) (args : Args) : RunResult :=
  match check_clang_format env toolNames with
  | (none, probes) =>
    { exit := 1, trace := probes, prints := [Msg.projectRoot root, Msg.clangNotFound] }
  | (some tool, probes) =>
    mainWithFiles env root args.check args.verbose args.dryRun tool probes
      (cppFilesOf fs root args)

/-- Every command attempted by check_clang_format is a version probe. -/
theorem check_clang_format_probes (env : Env) (names : List String) :
    ∀ c ∈ (check_clang_format env names).2, ∃ n, c = Cmd.probe n := by
  induction names with
  | nil => intro c hc; simp [check_clang_format] at hc
  | cons n rest ih =>
    intro c hc
    by_cases h : env.found n = true ∧ env.rc (Cmd.probe n) = 0
    · simp [check_clang_format, h] at hc
      exact ⟨n, hc⟩
    · simp only [check_clang_format, if_neg h, List.mem_cons] at hc
      rcases hc with hc | hc
      · exact ⟨n, hc⟩
      · exact ih c hc

/-- The check-mode per-file loop: the count is the number of files whose
check invocation returned non-zero, and the commands are exactly one check
command per file, in order. -/
theorem formatLoop_check (env : Env) (tool : String) (verbose : Bool) (files : List FsPath) :
    (formatLoop env tool true verbose files).1 =
      files.countP (fun f => decide (env.rc (Cmd.checkFile tool f) ≠ 0))
    ∧ (formatLoop env tool true verbose files).2.1 = files.map (Cmd.checkFile tool) := by
  induction files with
  | nil => exact ⟨rfl, rfl⟩
  | cons f rest ih =>
    constructor
    · show (if (format_file env tool f true verbose).1 then 1 else 0) + _ = _
      rw [List.countP_cons, ih.1]
      by_cases h : env.rc (Cmd.checkFile tool f) ≠ 0
      · simp only [format_file, if_pos h]
        simp [h]; omega
      · simp only [format_file, if_neg h]
        simp [h]
    · show (format_file env tool f true verbose).2.1 ++ _ = _
      rw [ih.2]
      by_cases h : env.rc (Cmd.checkFile tool f) ≠ 0 <;>
        simp [format_file, h]

/-- C1: in a --check run (that found a formatter), the exit status is 1
exactly when some candidate file's check invocation returns non-zero, and
0 otherwise; no in-place (`-i`) formatting command is ever issued, so no
file is modified. -/
theorem check_mode_exit (fs : FS) (env : Env) (root : FsPath) (args : Args)
    (tool : String) (probes : List Cmd)
    (hres : check_clang_format env toolNames = (some tool, probes))
    (hc : args.check = true) (hd : args.dryRun = false) :
    ((clang_format_main fs env root args).exit =
      if (cppFilesOf fs root args).any
           (fun f => decide (env.rc (Cmd.checkFile tool f) ≠ 0)) = true then 1 else 0)
    ∧ ∀ t f, Cmd.fixFile t f ∉ (clang_format_main fs env root args).trace := by
  have hmain : clang_format_main fs env root args =
      mainWithFiles env root args.check args.verbose args.dryRun tool probes
        (cppFilesOf fs root args) := by
    unfold clang_format_main
    rw [hres]
  set files := cppFilesOf fs root args with hfiles
  have hloop := formatLoop_check env tool args.verbose files
  constructor
  · rw [hmain]
    unfold mainWithFiles
    rw [hd, hc]
    simp only [Bool.false_eq_true, if_false, if_true]
    cases hany : files.any (fun f => decide (env.rc (Cmd.checkFile tool f) ≠ 0)) with
    | true =>
      obtain ⟨f, hf, hp⟩ := List.any_eq_true.mp hany
      have hpos : 0 < (formatLoop env tool true args.verbose files).1 := by
        rw [hloop.1]
        exact List.countP_pos_iff.mpr ⟨f, hf, hp⟩
      simp [hpos]
    | false =>
      have hzero : (formatLoop env tool true args.verbose files).1 = 0 := by
        rw [hloop.1]
        exact List.countP_eq_zero.mpr (by simpa using List.any_eq_false.mp hany)
      simp [hzero]
  · intro t f
    rw [hmain]
    unfold mainWithFiles
    rw [hd, hc]
    simp only [Bool.false_eq_true, if_false, if_true]
    have htr : ∀ c ∈ probes ++ [Cmd.version tool] ++
        (formatLoop env tool true args.verbose files).2.1, Cmd.fixFile t f ≠ c := by
      intro c hc'
      rcases List.mem_append.mp hc' with hc' | hc'
      · rcases List.mem_append.mp hc' with hc' | hc'
        · obtain ⟨n, rfl⟩ := check_clang_format_probes env toolNames c (hres ▸ hc')
          simp
        · simp only [List.mem_singleton] at hc'
          rw [hc']; simp
      · rw [hloop.2] at hc'
        obtain ⟨g, -, rfl⟩ := List.mem_map.mp hc'
        simp
    by_cases hpos : (formatLoop env tool true args.verbose files).1 > 0
    · simp only [hpos, if_pos]
      intro hmem
      exact htr _ (by simpa using hmem) rfl
    · simp only [hpos, if_neg]
      intro hmem
      exact htr _ (by simpa using hmem) rfl

/-- A concrete environment for witnesses: only `clang-format` exists; its
version probe succeeds; the check invocation of `proj/src/a.cpp` reports it
needs formatting and the in-place invocation of it fails. -/
def envW : Env where
  found := fun n => decide (n = "clang-format")
  rc := fun c =>
    match c with
    | Cmd.checkFile _ f => if f = ["proj", "src", "a.cpp"] then 1 else 0
    | Cmd.fixFile _ f => if f = ["proj", "src", "a.cpp"] then 1 else 0
    | _ => 0
  stderrOf := fun _ => "err"
  versionOut := fun _ => "clang-format version 17.0.6"

/-- C1 witness: the theorem applied to the concrete filesystem and
environment, in check mode. -/
theorem check_mode_exit_witness :
    ((clang_format_main fsW envW ["proj"] ⟨true, false, false, []⟩).exit =
      if (cppFilesOf fsW ["proj"] ⟨true, false, false, []⟩).any
           (fun f => decide (envW.rc (Cmd.checkFile ("clang-format") f) ≠ 0)) = true
      then 1 else 0)
    ∧ ∀ t f, Cmd.fixFile t f ∉ (clang_format_main fsW envW ["proj"] ⟨true, false, false, []⟩).trace :=
  check_mode_exit fsW envW ["proj"] ⟨true, false, false, []⟩ ("clang-format")
    [Cmd.probe ("clang-format")] (by decide) rfl rfl

/-- The fix-mode per-file loop: every file gets exactly one in-place
command, in order, and every failing file gets its error message printed. -/
theorem formatLoop_fix (env : Env) (tool : String) (verbose : Bool) (files : List FsPath) :
    (formatLoop env tool false verbose files).2.1 = files.map (Cmd.fixFile tool)
    ∧ ∀ f ∈ files, env.rc (Cmd.fixFile tool f) ≠ 0 →
        Msg.errorFormatting f (env.stderrOf f) ∈ (formatLoop env tool false verbose files).2.2 := by
  induction files with
  | nil => exact ⟨rfl, by intro f hf; simp at hf⟩
  | cons g rest ih =>
    constructor
    · show (format_file env tool g false verbose).2.1 ++ _ = _
      rw [ih.1]
      by_cases h : env.rc (Cmd.fixFile tool g) ≠ 0 <;> simp [format_file, h]
    · intro f hf hrc
      show _ ∈ (format_file env tool g false verbose).2.2 ++ _
      rcases List.mem_cons.mp hf with rfl | hf'
      · refine List.mem_append.mpr (Or.inl ?_)
        simp [format_file, hrc]
      · exact List.mem_append.mpr (Or.inr (ih.2 f hf' hrc))

/-- C2: a fix-mode run (no --check, no --dry-run) that found a formatter
always exits 0; every candidate file is given its in-place invocation (the
loop never stops early), and a failing invocation prints the tool's error
text for that file. -/
theorem fix_mode_exit_zero (fs : FS) (env : Env) (root : FsPath) (args : Args)
    (tool : String) (probes : List Cmd)
    (hres : check_clang_format env toolNames = (some tool, probes))
    (hc : args.check = false) (hd : args.dryRun = false) :
    (clang_format_main fs env root args).exit = 0
    ∧ ∀ f ∈ cppFilesOf fs root args,
        Cmd.fixFile tool f ∈ (clang_format_main fs env root args).trace
        ∧ (env.rc (Cmd.fixFile tool f) ≠ 0 →
            Msg.errorFormatting f (env.stderrOf f) ∈ (clang_format_main fs env root args).prints) := by
  have hmain : clang_format_main fs env root args =
      mainWithFiles env root args.check args.verbose args.dryRun tool probes
        (cppFilesOf fs root args) := by
    unfold clang_format_main
    rw [hres]
  set files := cppFilesOf fs root args with hfiles
  have hloop := formatLoop_fix env tool args.verbose files
  rw [hmain]
  unfold mainWithFiles
  rw [hd, hc]
  simp only [Bool.false_eq_true, if_false]
  refine ⟨trivial, ?_⟩
  intro f hf
  constructor
  · refine List.mem_append.mpr (Or.inr ?_)
    rw [hloop.1]
    exact List.mem_map.mpr ⟨f, hf, rfl⟩
  · intro hrc
    refine List.mem_append.mpr (Or.inl (List.mem_append.mpr (Or.inr ?_)))
    exact hloop.2 f hf hrc

/-- C2 witness: the theorem applied to the concrete filesystem and
environment in fix mode; the single candidate file's in-place invocation
fails (return code 1), yet the run exits 0. -/
theorem fix_mode_exit_zero_witness :
    (clang_format_main fsW envW ["proj"] ⟨false, false, false, []⟩).exit = 0
    ∧ ∀ f ∈ cppFilesOf fsW ["proj"] ⟨false, false, false, []⟩,
        Cmd.fixFile ("clang-format") f ∈
          (clang_format_main fsW envW ["proj"] ⟨false, false, false, []⟩).trace
        ∧ (envW.rc (Cmd.fixFile ("clang-format") f) ≠ 0 →
            Msg.errorFormatting f (envW.stderrOf f) ∈
              (clang_format_main fsW envW ["proj"] ⟨false, false, false, []⟩).prints) :=
  fix_mode_exit_zero fsW envW ["proj"] ⟨false, false, false, []⟩ ("clang-format")
    [Cmd.probe ("clang-format")] (by decide) rfl rfl

/-- C5 (counterexample): a --dry-run run still probes the formatter (lines
126-129 run before the dry-run branch at line 144), so "without invoking
the external formatter tool at all (no version probe ...)" fails: in a
concrete environment where `clang-format` exists, the trace of a dry run
contains its version probe and its version query. -/
theorem dry_run_counterexample :
    Cmd.probe ("clang-format") ∈
      (clang_format_main fsW envW ["proj"] ⟨false, false, true, []⟩).trace
    ∧ Cmd.version ("clang-format") ∈
      (clang_format_main fsW envW ["proj"] ⟨false, false, true, []⟩).trace
    ∧ (clang_format_main fsW envW ["proj"] ⟨false, false, true, []⟩).trace ≠ [] := by
  refine ⟨by decide, by decide, by decide⟩

/-- The dry-run printing loop on files that all lie under the root. -/
theorem dryRunLoop_all_under (root : FsPath) (files : List FsPath)
    (h : ∀ f ∈ files, root.isPrefixOf f = true) :
    dryRunLoop root files =
      (files.map (fun f => Msg.dryRunFile (f.drop root.length)), true) := by
  induction files with
  | nil => rfl
  | cons f rest ih =>
    have hf := h f (List.mem_cons_self f rest)
    have hrest := ih (fun g hg => h g (List.mem_cons_of_mem f hg))
    simp [dryRunLoop, hf, hrest]

/-- C5 (amended): a --dry-run run issues no per-file formatter command at
all, but the tool-resolution version probe still happens first (and its
failure is still fatal, exit 1).  When a tool is found and every candidate
file lies under the project root, the run prints the candidate list and
exits 0. -/
theorem dry_run_amended (fs : FS) (env : Env) (root : FsPath) (args : Args)
    (hd : args.dryRun = true) :
    (∀ t f, Cmd.checkFile t f ∉ (clang_format_main fs env root args).trace
          ∧ Cmd.fixFile t f ∉ (clang_format_main fs env root args).trace)
    ∧ (∀ tool probes, check_clang_format env toolNames = (some tool, probes) →
        (∀ f ∈ cppFilesOf fs root args, root.isPrefixOf f = true) →
        (clang_format_main fs env root args).exit = 0
        ∧ (clang_format_main fs env root args).prints =
            [Msg.projectRoot root, Msg.usingVersion (env.versionOut tool),
             Msg.foundCount (cppFilesOf fs root args).length, Msg.dryRunHeader] ++
            (cppFilesOf fs root args).map (fun f => Msg.dryRunFile (f.drop root.length)))
    ∧ (∀ probes, check_clang_format env toolNames = (none, probes) →
        (clang_format_main fs env root args).exit = 1) := by
  refine ⟨?_, ?_, ?_⟩
  · intro t f
    unfold clang_format_main
    cases hres : check_clang_format env toolNames with
    | mk sel probes =>
      cases sel with
      | none =>
        have hp2 : probes = (check_clang_format env toolNames).2 := by rw [hres]
        constructor <;> · intro hmem
                          simp only at hmem
                          obtain ⟨n, hn⟩ :=
                            check_clang_format_probes env toolNames _ (hp2 ▸ hmem)
                          simp at hn
      | some tool =>
        have hp2 : probes = (check_clang_format env toolNames).2 := by rw [hres]
        simp only
        unfold mainWithFiles
        rw [hd]
        simp only [if_true]
        constructor <;> · intro hmem
                          rcases List.mem_append.mp hmem with hmem | hmem
                          · obtain ⟨n, hn⟩ :=
                              check_clang_format_probes env toolNames _ (hp2 ▸ hmem)
                            simp at hn
                          · simp at hmem
  · intro tool probes hres hunder
    have hmain : clang_format_main fs env root args =
        mainWithFiles env root args.check args.verbose args.dryRun tool probes
          (cppFilesOf fs root args) := by
      unfold clang_format_main
      rw [hres]
    rw [hmain]
    unfold mainWithFiles
    rw [hd]
    simp only [if_true]
    rw [dryRunLoop_all_under root _ hunder]
    exact ⟨rfl, rfl⟩
  · intro probes hres
    unfold clang_format_main
    rw [hres]

/-- C5 witness: the amended theorem applied to the concrete run of the
counterexample. -/
theorem dry_run_amended_witness :
    (∀ t f, Cmd.checkFile t f ∉
        (clang_format_main fsW envW ["proj"] ⟨false, false, true, []⟩).trace
      ∧ Cmd.fixFile t f ∉
        (clang_format_main fsW envW ["proj"] ⟨false, false, true, []⟩).trace)
    ∧ (∀ tool probes, check_clang_format envW toolNames = (some tool, probes) →
        (∀ f ∈ cppFilesOf fsW ["proj"] ⟨false, false, true, []⟩,
          (["proj"] : FsPath).isPrefixOf f = true) →
        (clang_format_main fsW envW ["proj"] ⟨false, false, true, []⟩).exit = 0
        ∧ (clang_format_main fsW envW ["proj"] ⟨false, false, true, []⟩).prints =
            [Msg.projectRoot ["proj"], Msg.usingVersion (envW.versionOut tool),
             Msg.foundCount (cppFilesOf fsW ["proj"] ⟨false, false, true, []⟩).length,
             Msg.dryRunHeader] ++
            (cppFilesOf fsW ["proj"] ⟨false, false, true, []⟩).map
              (fun f => Msg.dryRunFile (f.drop (["proj"] : FsPath).length)))
    ∧ (∀ probes, check_clang_format envW toolNames = (none, probes) →
        (clang_format_main fsW envW ["proj"] ⟨false, false, true, []⟩).exit = 1) :=
  dry_run_amended fsW envW ["proj"] ⟨false, false, true, []⟩ rfl

/-- collectPaths distributes over list append. -/
theorem collectPaths_append (fs : FS) (xs ys : List FsPath) :
    collectPaths fs (xs ++ ys) = collectPaths fs xs ++ collectPaths fs ys := by
  induction xs with
  | nil => rfl
  | cons x rest ih => simp [collectPaths, ih]

/-- C10: a positional argument that is an existing regular file is put on
the candidate list as-is — no extension filter and no SKIP_DIRS filter is
applied to it (the statement quantifies over every path `p`, with no
condition on its extension or components) — while an argument that is
neither an existing file nor an existing directory contributes nothing:
the rest of the run (exit status, commands, prints) is identical to the
run without that argument. -/
theorem positional_path_args (fs : FS) (env : Env) (root : FsPath) (args : Args)
    (p : FsPath) (ps qs : List FsPath) (hpaths : args.paths = ps ++ p :: qs) :
    (fs.isFile p = true →
      collectPaths fs args.paths = collectPaths fs ps ++ p :: collectPaths fs qs)
    ∧ (fs.isFile p = false → fs.isDir p = false →
        collectPaths fs args.paths = collectPaths fs (ps ++ qs)
        ∧ (ps ++ qs ≠ [] →
            clang_format_main fs env root args =
            clang_format_main fs env root { args with paths := ps ++ qs })) := by
  constructor
  · intro hfile
    rw [hpaths, collectPaths_append]
    simp [collectPaths, hfile]
  · intro hfile hdir
    have hcoll : collectPaths fs (ps ++ p :: qs) = collectPaths fs (ps ++ qs) := by
      rw [collectPaths_append, collectPaths_append]
      simp [collectPaths, hfile, hdir]
    refine ⟨by rw [hpaths, hcoll], ?_⟩
    intro hne
    have hfiles : cppFilesOf fs root args =
        cppFilesOf fs root { args with paths := ps ++ qs } := by
      unfold cppFilesOf
      rw [hpaths]
      have h1 : (ps ++ p :: qs).isEmpty = false := by
        cases ps <;> simp
      have h2 : (ps ++ qs).isEmpty = false := by
        cases hq : ps ++ qs with
        | nil => exact absurd hq hne
        | cons a l => simp
      rw [h1, h2]
      simp only [Bool.false_eq_true, if_false]
      exact hcoll
    unfold clang_format_main
    cases hres : check_clang_format env toolNames with
    | mk sel probes =>
      cases sel with
      | none => rfl
      | some tool => simp only; rw [hfiles]

/-- C10 witness: on the concrete filesystem, the file `proj/build/b.cpp`
(inside an excluded directory) given as a positional argument is collected
as-is, and a nonexistent argument leaves the whole run unchanged. -/
theorem positional_path_args_witness :
    ((fsW.isFile ["README.md"] = true →
      collectPaths fsW [["proj", "src", "a.cpp"], ["README.md"]] =
        collectPaths fsW [["proj", "src", "a.cpp"]] ++ ["README.md"] :: collectPaths fsW [])
    ∧ (fsW.isFile ["README.md"] = false → fsW.isDir ["README.md"] = false →
        collectPaths fsW [["proj", "src", "a.cpp"], ["README.md"]] =
          collectPaths fsW ([["proj", "src", "a.cpp"]] ++ [])
        ∧ ([["proj", "src", "a.cpp"]] ++ ([] : List FsPath) ≠ [] →
            clang_format_main fsW envW ["proj"]
              ⟨false, false, false, [["proj", "src", "a.cpp"], ["README.md"]]⟩ =
            clang_format_main fsW envW ["proj"]
              ⟨false, false, false, [["proj", "src", "a.cpp"]] ++ []⟩)))
    ∧ ((fsW.isFile ["nope"] = true →
      collectPaths fsW [["proj", "src", "a.cpp"], ["nope"]] =
        collectPaths fsW [["proj", "src", "a.cpp"]] ++ ["nope"] :: collectPaths fsW [])
    ∧ (fsW.isFile ["nope"] = false → fsW.isDir ["nope"] = false →
        collectPaths fsW [["proj", "src", "a.cpp"], ["nope"]] =
          collectPaths fsW ([["proj", "src", "a.cpp"]] ++ [])
        ∧ ([["proj", "src", "a.cpp"]] ++ ([] : List FsPath) ≠ [] →
            clang_format_main fsW envW ["proj"]
              ⟨false, false, false, [["proj", "src", "a.cpp"], ["nope"]]⟩ =
            clang_format_main fsW envW ["proj"]
              ⟨false, false, false, [["proj", "src", "a.cpp"]] ++ []⟩))) :=
  ⟨positional_path_args fsW envW ["proj"]
      ⟨false, false, false, [["proj", "src", "a.cpp"], ["README.md"]]⟩
      ["README.md"] [["proj", "src", "a.cpp"]] [] rfl,
   positional_path_args fsW envW ["proj"]
      ⟨false, false, false, [["proj", "src", "a.cpp"], ["nope"]]⟩
      ["nope"] [["proj", "src", "a.cpp"]] [] rfl⟩

/-! ### Doc extractor (generate_docs.py)

File contents are lists of characters.  Fidelity note: Python's `\s`,
`\w` and `str.strip()` also accept some non-ASCII characters; the
embedding uses their ASCII meaning, which coincides on every input
below. -/

/-- The characters of a string literal (used to write embedded text). -/
def strL (s : String) : List Char := s.data

/-- Python whitespace, as in `str.strip()` and the regex class `\s`. -/
def isPySpace (c : Char) : Bool :=
  c == ' ' || c == '\t' || c == '\n' || c == '\r' || c == '\x0b' || c == '\x0c'

/-- The regex class `\w`. -/
def isWordChar (c : Char) : Bool := c.isAlpha || c.isDigit || c == '_'

/-- The regex class `[\w:]`. -/
def isWordColon (c : Char) : Bool := isWordChar c || c == ':'

/-- str.lstrip(). -/
def lstripL (l : List Char) : List Char := l.dropWhile isPySpace

/-- str.rstrip(). -/
def rstripL (l : List Char) : List Char := (l.reverse.dropWhile isPySpace).reverse

/-- str.strip(). -/
def stripL (l : List Char) : List Char := lstripL (rstripL l)

/-- str.split with separator a single newline. -/
def splitNl : List Char → List (List Char)
  | [] => [[]]
  | c :: rest =>
    if c == '\n' then [] :: splitNl rest
    else
      match splitNl rest with
      | l :: ls => (c :: l) :: ls
      | [] => [[c]]

/-- sep.join(...), on character lists. -/
def joinSep (sep : List Char) : List (List Char) → List Char
  | [] => []
  | [l] => l
  | l :: ls => l ++ sep ++ joinSep sep ls

/-- Start indices (counted from `i`) of every occurrence of `pat`. -/
def occurrencesFrom (pat : List Char) : List Char → Nat → List Nat
  | [], i => if pat.isEmpty then [i] else []
  | c :: rest, i =>
    (if pat.isPrefixOf (c :: rest) then [i] else []) ++ occurrencesFrom pat rest (i + 1)

/-- str.rfind(pat): start index of the last occurrence, if any. -/
def rfindPat (pat l : List Char) : Option Nat := (occurrencesFrom pat l 0).getLast?

/-- First index at which `pat` occurs, if any. -/
def findPatIdx (pat : List Char) : List Char → Option Nat
  | [] => if pat.isEmpty then some 0 else none
  | c :: rest =>
    if pat.isPrefixOf (c :: rest) then some 0
    else (findPatIdx pat rest).map (· + 1)

/-- One iteration of the block-comment cleaning loop (generate_docs.py
83-89): `re.sub(r'^/\*\*\s*', '', ...)`, then `re.sub(r'\*/$', '', ...)`,
then `re.sub(r'^\s*\*\s?', '', ...)` (which fires only when a `*` follows
the leading whitespace, and then also removes at most one whitespace
character after the `*`), then strip; an empty result is dropped. -/
def cleanCommentLine (line : List Char) : Option (List Char) :=
  let l1 := if ['/', '*', '*'].isPrefixOf line then (line.drop 3).dropWhile isPySpace else line
  let l2 := if ['*', '/'].isSuffixOf l1 then l1.take (l1.length - 2) else l1
  let l3 :=
    match l2.dropWhile isPySpace with
    | '*' :: r =>
      match r with
      | c :: r2 => if isPySpace c then r2 else c :: r2
      | [] => []
    | _ => l2
  let l4 := stripL l3
  if l4.isEmpty then none else some l4

/-- The backward scan over `///` and `//` lines (generate_docs.py 93-103),
given the file's lines in REVERSE order; returns the collected comment
texts in file order (`comment_lines.insert(0, ...)`).  A `///` line is
collected, a `//` line is skipped and the scan continues, anything else
stops it. -/
def lineCommentScanRev : List (List Char) → List (List Char)
  | [] => []
  | line :: rest =>
    let s := stripL line
    if ['/', '/', '/'].isPrefixOf s then lineCommentScanRev rest ++ [stripL (s.drop 3)]
    else if ['/', '/'].isPrefixOf s then lineCommentScanRev rest
    else []

/-- extract_doxygen_comment (generate_docs.py 70-104): the text before
`pos`, right-stripped; if it ends in `*/` and contains `/**`, the last
block comment is cleaned and flattened; otherwise the trailing run of
`///` line comments is collected. -/
def extract_doxygen_comment (content : List Char) (pos : Nat) : List Char :=
  let before := rstripL (content.take pos)
  if ['*', '/'].isSuffixOf before then
    match rfindPat ['/', '*', '*'] before with
    | some start =>
      let comment := stripL (before.drop start)
      joinSep [' '] ((splitNl comment).filterMap cleanCommentLine)
    | none => joinSep [' '] (lineCommentScanRev (splitNl before).reverse)
  else joinSep [' '] (lineCommentScanRev (splitNl before).reverse)

/-- re.search of `/\*\*[\s\S]*?\*/` (generate_docs.py 118): the END index
(exclusive) of the leftmost, shortest match: scanning left to right, the
first `/**` after which a `*/` starts at least one character later,
matched up to the earliest such `*/`. -/
def blockCommentEnd : List Char → Option Nat
  | [] => none
  | c :: rest =>
    if ['/', '*', '*'].isPrefixOf (c :: rest) then
      match findPatIdx ['*', '/'] ((c :: rest).drop 3) with
      | some j => some (3 + j + 2)
      | none => (blockCommentEnd rest).map (· + 1)
    else (blockCommentEnd rest).map (· + 1)

/-- Mirrors the Parameter dataclass (generate_docs.py 21-26). -/
structure CppParam where
  name : List Char
  type : List Char
  description : List Char
deriving DecidableEq

/-- Mirrors the Function dataclass (generate_docs.py 29-38); named
CppMethod here because `Function` is taken in Lean. -/
structure CppMethod where
  name : List Char
  return_type : List Char
  parameters : List CppParam
  description : List Char
  is_static : Bool
  is_virtual : Bool
  is_const : Bool
deriving DecidableEq

/-- Mirrors the Class dataclass (generate_docs.py 41-48). -/
structure CppClass where
  name : List Char
  description : List Char
  methods : List CppMethod
  base_classes : List (List Char)
  is_struct : Bool
deriving DecidableEq

/-- Mirrors the Header dataclass (generate_docs.py 51-57). -/
structure CppHeader where
  path : List Char
  classes : List CppClass
  functions : List CppMethod
  description : List Char
deriving DecidableEq

/-! ### The class/struct regex (generate_docs.py 123-126)

`(class|struct)\s+(\w+)(?:\s*:\s*(?:public|protected|private)?\s*([\w:]+))?\s*\{`,
modelled by a matcher specialized to this pattern.  Where the pattern is
deterministic that determinism is exploited: `\s+`/`\s*` runs are maximal
because the classes of adjacent pieces are disjoint, `(\w+)` and
`([\w:]+)` captures are maximal because giving a character back leaves a
word character where whitespace or a brace must follow, and the keyword
alternatives are tried in the regex's order with fallback, which is full
backtracking for literal alternatives. -/

/-- The leading `(class|struct)` alternative: is_struct flag and remainder. -/
def classKw (l : List Char) : Option (Bool × List Char) :=
  if ['c', 'l', 'a', 's', 's'].isPrefixOf l then some (false, l.drop 5)
  else if ['s', 't', 'r', 'u', 'c', 't'].isPrefixOf l then some (true, l.drop 6)
  else none

/-- The tail `\s*([\w:]+)\s*\{`: the captured base class and the remainder
after the brace. -/
def baseTail (l : List Char) : Option (List Char × List Char) :=
  let a := l.dropWhile isPySpace
  let base := a.takeWhile isWordColon
  if base.isEmpty then none
  else
    match (a.drop base.length).dropWhile isPySpace with
    | c :: r => if c == '\x7b' then some (base, r) else none
    | [] => none

/-- The inheritance group with the closing `\s*\{`, tried with the group
present: `\s*:` then `\s*`, then the keyword alternatives public,
protected, private, none — each followed by `\s*([\w:]+)\s*\{` — in the
regex's order. -/
def inheritTail (l : List Char) : Option (List Char × List Char) :=
  match l.dropWhile isPySpace with
  | c :: r =>
    if c == ':' then
      let b := r.dropWhile isPySpace
      match (if ['p', 'u', 'b', 'l', 'i', 'c'].isPrefixOf b then baseTail (b.drop 6) else none) with
      | some res => some res
      | none =>
        match (if ['p', 'r', 'o', 't', 'e', 'c', 't', 'e', 'd'].isPrefixOf b then baseTail (b.drop 9) else none) with
        | some res => some res
        | none =>
          match (if ['p', 'r', 'i', 'v', 'a', 't', 'e'].isPrefixOf b then baseTail (b.drop 7) else none) with
          | some res => some res
          | none => baseTail b
    else none
  | [] => none

/-- One attempted match of the class regex at the head of `l`: the
remainder after the match, the class name, the is_struct flag and the
optional base-class capture. -/
def classMatchAt (l : List Char) : Option (List Char × List Char × Bool × Option (List Char)) :=
  match classKw l with
  | none => none
  | some (isStruct, r1) =>
    let ws := r1.takeWhile isPySpace
    if ws.isEmpty then none
    else
      let r2 := r1.drop ws.length
      let name := r2.takeWhile isWordChar
      if name.isEmpty then none
      else
        let r3 := r2.drop name.length
        match inheritTail r3 with
        | some (base, rest) => some (rest, name, isStruct, some base)
        | none =>
          match r3.dropWhile isPySpace with
          | c :: r => if c == '\x7b' then some (r, name, isStruct, none) else none
          | [] => none

/-- finditer over the class regex together with the per-match Class
construction of generate_docs.py 128-142.  `i` is the absolute position of
`rest` inside `content` (the description is extracted looking backward
from the match start, line 136); matches are non-overlapping and the scan
resumes right after each match; on failure it advances one character.
`fuel` bounds the number of steps — parse_header passes
`content.length + 1`, enough because every step consumes at least one
character. -/
def classScanAux (content : List Char) : Nat → Nat → List Char → List CppClass
  | 0, _, _ => []
  | _ + 1, _, [] => []
  | fuel + 1, i, c :: rest =>
    match classMatchAt (c :: rest) with
    | some (after, name, isStruct, base) =>
      { name := name
        description := extract_doxygen_comment content i
        methods := []
        base_classes := match base with | some b => [b] | none => []
        is_struct := isStruct } ::
        classScanAux content fuel (i + ((c :: rest).length - after.length)) after
    | none => classScanAux content fuel (i + 1) rest

/-- parse_header (generate_docs.py 107-150): the file-level description
comes from the first block comment inside the first 500 characters (lines
118-120); the classes from the scan of the whole text (lines 123-142).
The function regex of lines 145-148 is compiled but never used, so
`functions` stays empty and no class's `methods` list is ever filled. -/
def parse_header (path : List Char) (content : List Char) : CppHeader :=
  { path := path
    classes := classScanAux content (content.length + 1) 0 content
    functions := []
    description :=
      match blockCommentEnd (content.take 500) with
      | some e => extract_doxygen_comment content e
      | none => [] }

/-- The markdown lines for one method (generate_docs.py 172-179). -/
def methodLines (m : CppMethod) : List (List Char) :=
  let params := joinSep [',', ' '] (m.parameters.map (fun p => p.type ++ ' ' :: p.name))
  let signature0 := '\x60' :: m.return_type ++ ' ' :: m.name ++ '(' :: params ++ [')', '\x60']
  let signature := if m.is_const then signature0 ++ strL (" const") else signature0
  [strL ("- ") ++ signature] ++
    (if m.description.isEmpty then [] else [strL ("  - ") ++ m.description])

/-- generate_class_doc (generate_docs.py 153-182): heading, optional
description, optional "Inherits from" line, and a "#### Methods" section
only when the method list is non-empty; joined with newlines. -/
def generate_class_doc (cls : CppClass) : List Char :=
  let kind := if cls.is_struct then strL ("struct") else strL ("class")
  let lines :=
    [strL ("### `") ++ kind ++ ' ' :: cls.name ++ ['\x60'], []] ++
    (if cls.description.isEmpty then [] else [cls.description, []]) ++
    (if cls.base_classes.isEmpty then []
     else [strL ("**Inherits from:** `") ++ joinSep (strL ("`, `")) cls.base_classes ++ ['\x60'], []]) ++
    (if cls.methods.isEmpty then []
     else [strL ("#### Methods"), []] ++ (cls.methods.map methodLines).flatten ++ [[]])
  joinSep ['\n'] lines

/-- Modelled from the spec (§4.3 Output: "methods section only if the
method list is non-empty"), for the C9 comparison: the class markdown
with no methods section at all. -/
def generate_class_doc_spec (cls : CppClass) : List Char :=
  let kind := if cls.is_struct then strL ("struct") else strL ("class")
  let lines :=
    [strL ("### `") ++ kind ++ ' ' :: cls.name ++ ['\x60'], []] ++
    (if cls.description.isEmpty then [] else [cls.description, []]) ++
    (if cls.base_classes.isEmpty then []
     else [strL ("**Inherits from:** `") ++ joinSep (strL ("`, `")) cls.base_classes ++ ['\x60'], []])
  joinSep ['\n'] lines

/-- The C6 test header: `struct Point {` preceded by three identical
`/// A 2D point.` lines and no block comment anywhere. -/
def c6content : List Char :=
  strL ("/// A 2D point.\n/// A 2D point.\n/// A 2D point.\nstruct Point \x7b\n\x7d;\n")

/-- The 62 characters up to and including the brace of `struct Point \x7b`,
used to state the amended C6 for every continuation of the file. -/
def c6start : List Char :=
  strL ("/// A 2D point.\n/// A 2D point.\n/// A 2D point.\nstruct Point \x7b")

/-- C6 (counterexample): on the very header the claim describes, the
parsed description is NOT "A 2D point.": the backward scan collects the
whole contiguous run of /// lines and joins all three with spaces. -/
theorem struct_point_counterexample :
    (parse_header [] c6content).classes =
      [⟨strL ("Point"), strL ("A 2D point. A 2D point. A 2D point."), [], [], true⟩]
    ∧ strL ("A 2D point. A 2D point. A 2D point.") ≠ strL ("A 2D point.") :=
  ⟨rfl, by decide⟩

/-- C6 (amended): for every header file whose text begins with the three
lines `/// A 2D point.` directly followed by `struct Point \x7b`, the first
parsed class is `Point` with is_struct = true, no base classes, no
methods, and description "A 2D point. A 2D point. A 2D point." — the
contiguous run of /// lines is flattened and space-joined, not
deduplicated to one line. -/
theorem struct_point_amended (s : List Char) :
    (parse_header [] (c6start ++ s)).classes.head? =
      some ⟨strL ("Point"), strL ("A 2D point. A 2D point. A 2D point."), [], [], true⟩ := rfl

/-- The C7 test header start: a file-level block comment followed by a
derived class declaration. -/
def c7start : List Char :=
  strL ("/** File description. */\nclass Foo : public Bar \x7b")

/-- A header that satisfies C7's hypothesis — `/** File description. */`
occurs inside the first 500 characters (at index 14), followed by
`class Foo : public Bar \x7b` — but whose FIRST block comment is another
one. -/
def c7bad : List Char :=
  strL ("/** Other. */ /** File description. */\nclass Foo : public Bar \x7b\n\x7d;\n")

/-- C7 (counterexample): on `c7bad` the hypothesis of the claim holds, yet
the parsed file description is "Other.", not "File description.":
`re.search` takes the LEFTMOST block comment of the first 500 characters,
not the quoted one. -/
theorem file_description_counterexample :
    findPatIdx (strL ("/** File description. */")) (c7bad.take 500) = some 14
    ∧ (parse_header [] c7bad).description = strL ("Other.")
    ∧ strL ("Other.") ≠ strL ("File description.") :=
  ⟨rfl, rfl, by decide⟩

/-- C7 (amended): for every header file whose text STARTS with
`/** File description. */`, a newline and `class Foo : public Bar \x7b`
(so that quoted comment is the first block comment of the file), the
parsed description is "File description." and the first parsed class is
Foo with base-class list [Bar] and is_struct = false. -/
theorem file_description_amended (s : List Char) :
    (parse_header [] (c7start ++ s)).description = strL ("File description.")
    ∧ (parse_header [] (c7start ++ s)).classes.head? =
      some ⟨strL ("Foo"), strL ("File description."), [], [strL ("Bar")], false⟩ :=
  ⟨rfl, rfl⟩

/-- Every class the scan produces carries an empty methods list. -/
theorem classScanAux_methods (content : List Char) (fuel : Nat) :
    ∀ (i : Nat) (rest : List Char) cls, cls ∈ classScanAux content fuel i rest →
      cls.methods = [] := by
  induction fuel with
  | zero => intro i rest cls h; simp [classScanAux] at h
  | succ fuel ih =>
    intro i rest cls h
    cases rest with
    | nil => simp [classScanAux] at h
    | cons c r =>
      simp only [classScanAux] at h
      cases hm : classMatchAt (c :: r) with
      | none =>
        rw [hm] at h
        exact ih _ _ cls h
      | some v =>
        obtain ⟨after, name, isStruct, base⟩ := v
        rw [hm] at h
        rcases List.mem_cons.mp h with rfl | h2
        · rfl
        · exact ih _ _ cls h2

/-- C9: every class record parse_header produces has an empty methods list
(the method regex of lines 145-148 is compiled but never applied), so
generate_class_doc never emits a "#### Methods" section for it: its output
coincides with the rendering that has no methods section at all. -/
theorem methods_never_populated (path content : List Char) :
    ∀ cls ∈ (parse_header path content).classes,
      cls.methods = [] ∧ generate_class_doc cls = generate_class_doc_spec cls := by
  intro cls h
  have hm : cls.methods = [] := classScanAux_methods content _ 0 content cls h
  refine ⟨hm, ?_⟩
  unfold generate_class_doc generate_class_doc_spec
  rw [hm]
  simp

/-- C9 witness: the theorem applied to a one-class header. -/
theorem methods_never_populated_witness :
    ((⟨strL ("A"), [], [], [], false⟩ : CppClass) ∈
      (parse_header [] (strL ("class A \x7b"))).classes)
    ∧ ((⟨strL ("A"), [], [], [], false⟩ : CppClass).methods = []
       ∧ generate_class_doc ⟨strL ("A"), [], [], [], false⟩ =
           generate_class_doc_spec ⟨strL ("A"), [], [], [], false⟩) :=
  ⟨by decide,
   methods_never_populated [] (strL ("class A \x7b")) ⟨strL ("A"), [], [], [], false⟩ (by decide)⟩

/-! ### generate_docs output (generate_docs.py 203-254)

The module as shipped never runs: line 251 is a stray statement `z` at
column 0, which dedents out of `generate_docs`; the indented line 252
after it then raises IndentationError when Python parses the file, before
any code executes.  The definitions below therefore model the write
sequence the function body of lines 212-254 describes (the documented
intent, per the spec §4.3), to state what the code would have to do. -/

/-- The index preamble (generate_docs.py 220-227). -/
def indexPreamble : List (List Char) :=
  [strL ("# Zyrnix API Reference"), [],
   strL ("Auto-generated API documentation for Zyrnix."), [],
   strL ("## Headers"), []]

/-- One index link line (generate_docs.py 231): `- [stem](stem.md)`. -/
def indexLink (stem : List Char) : List Char :=
  strL ("- [") ++ stem ++ strL ("](") ++ stem ++ strL (".md)")

/-- The markdown page of one parsed header (generate_docs.py 234-245);
`stem` is the header file's stem, its name being `stem.hpp` (only `*.hpp`
files are globbed, line 213). -/
def headerPage (stem : List Char) (h : CppHeader) : List Char :=
  let doc :=
    [('#' :: ' ' :: stem), [],
     strL ("Header: `include/Zyrnix/") ++ stem ++ strL (".hpp`"), []] ++
    (if h.classes.isEmpty then []
     else [strL ("## Classes"), []] ++ h.classes.map generate_class_doc)
  joinSep ['\n'] doc

/-- Modelled from the spec (§4.3 "Output: one markdown file per header ...
plus one index markdown file linking every generated header page by
name") and generate_docs.py 229-254: the ordered (file name, content)
writes of generate_docs on the parsed headers — one page per header, then
the index. -/
def generate_docs_writes (headers : List (List Char × CppHeader)) :
    List (List Char × List Char) :=
  headers.map (fun p => (p.1 ++ strL (".md"), headerPage p.1 p.2)) ++
    [(strL ("index.md"),
      joinSep ['\n'] (indexPreamble ++ headers.map (fun p => indexLink p.1)))]

/-- C3 (the intended behavior; the shipped code never reaches it): the
modelled write sequence consists of exactly one markdown file per parsed
header — named by the header's stem — followed by exactly one index file
whose body is the preamble plus one link line per generated header page. -/
theorem generate_docs_writes_shape (headers : List (List Char × CppHeader)) :
    (generate_docs_writes headers).length = headers.length + 1
    ∧ (generate_docs_writes headers).map Prod.fst =
        headers.map (fun p => p.1 ++ strL (".md")) ++ [strL ("index.md")]
    ∧ (generate_docs_writes headers).getLast? =
        some (strL ("index.md"),
          joinSep ['\n'] (indexPreamble ++ headers.map (fun p => indexLink p.1))) := by
  refine ⟨?_, ?_, ?_⟩
  · simp [generate_docs_writes]
  · simp [generate_docs_writes]
  · rw [generate_docs_writes, List.getLast?_append]
    rfl
